import Mathlib

/-!
Shallow embedding of `query_trades_ml.py` (ML trade data query script).

The script's values are untyped JSON-derived Python values; we model them with
`PyVal` (Python floats are modelled as exact rationals: every numeric literal the
script compares against is a small integer, where float rounding is immaterial).
Python exceptions that can escape a function are modelled with `Except PyErr`;
a `ValueError` raised by `datetime.fromisoformat` and caught by the script's own
`except ValueError` handler is modelled locally and never surfaces as a `PyErr`.
-/

set_option linter.unusedVariables false

namespace QueryTradesML

/-- An uncaught Python exception escaping a function of the script. -/
inductive PyErr
  | typeError
  | attributeError
  | valueError
  deriving DecidableEq

/-- A loosely-typed Python value as produced by `json` deserialization. -/
inductive PyVal
  | none
  | bool (b : Bool)
  | int (n : Int)
  | float (q : Rat)
  | str (s : String)
  deriving DecidableEq

/-- `isinstance(v, (int, float))`.  In Python `bool` is a subclass of `int`,
so boolean values pass this check. -/
def PyVal.isNumeric : PyVal → Bool
  | .bool _ => true
  | .int _ => true
  | .float _ => true
  | _ => false

/-- Numeric value of a Python number (`bool` counts as `0`/`1`). -/
def PyVal.toRatOpt : PyVal → Option Rat
  | .bool b => some (if b then 1 else 0)
  | .int n => some (n : Rat)
  | .float q => some q
  | _ => Option.none

/-- Python `a <= b`: defined between numbers (with `bool` as `0`/`1`) and between
strings (lexicographic); any other combination raises `TypeError`. -/
def pyLE (a b : PyVal) : Except PyErr Bool :=
  match a.toRatOpt, b.toRatOpt with
  | some x, some y => .ok (decide (x ≤ y))
  | _, _ =>
    match a, b with
    | .str s, .str u => .ok (decide (s < u) || s == u)
    | _, _ => .error .typeError

/-- Python `a < b`, same domain as `pyLE`. -/
def pyLT (a b : PyVal) : Except PyErr Bool :=
  match a.toRatOpt, b.toRatOpt with
  | some x, some y => .ok (decide (x < y))
  | _, _ =>
    match a, b with
    | .str s, .str u => .ok (decide (s < u))
    | _, _ => .error .typeError

/-- Python `a == b`: numbers compare by value (`True == 1`), strings by content,
`None == None`; cross-kind comparisons are `False`, never an error. -/
def pyEq (a b : PyVal) : Bool :=
  match a.toRatOpt, b.toRatOpt with
  | some x, some y => decide (x = y)
  | _, _ =>
    match a, b with
    | .str s, .str u => s == u
    | .none, .none => true
    | _, _ => false

/-- Using a Python value as the right operand of float subtraction
(`calculated - trade["duration_seconds"]`): numbers coerce, anything else
raises `TypeError`. -/
def pyToRat (v : PyVal) : Except PyErr Rat :=
  match v.toRatOpt with
  | some q => .ok q
  | Option.none => .error .typeError

/-- Python `abs` on a number. -/
def ratAbs (x : Rat) : Rat := if x < 0 then -x else x

instance {ε α : Type} [DecidableEq ε] [DecidableEq α] : DecidableEq (Except ε α)
  | .error a, .error b =>
    if h : a = b then .isTrue (h ▸ rfl)
    else .isFalse (fun hh => h (Except.error.inj hh))
  | .error a, .ok b => .isFalse (fun hh => Except.noConfusion hh)
  | .ok a, .error b => .isFalse (fun hh => Except.noConfusion hh)
  | .ok a, .ok b =>
    if h : a = b then .isTrue (h ▸ rfl)
    else .isFalse (fun hh => h (Except.ok.inj hh))

/-! ### Model of `datetime.fromisoformat`

`datetime.fromisoformat` is library code; we model the full documented grammar
of CPython 3.7-3.10 (the library generation the script's one-shot ISO-8601
handling targets):

  `YYYY-MM-DD[*HH[:MM[:SS[.fff[fff]]]][+HH:MM[:SS[.ffffff]]]]`

matching the reference implementation's behavior:
- the separator at index 10 is an arbitrary single character;
- the time components are `HH`, optionally `:MM`, optionally `:SS`, optionally
  a fraction of exactly 3 or 6 digits, each range-checked by the `datetime`
  constructor (`HH <= 23`, `MM <= 59`, `SS <= 59`);
- the time string is split from the offset at the first sign character (the
  reference splits at the first `'-'` if any, else the first `'+'`; on every
  accepted string at most one sign occurs, so the two rules agree, and both
  reject every string with two or more signs);
- the offset must be exactly `HH:MM`, `HH:MM:SS` or `HH:MM:SS.ffffff`
  (lengths 5, 8, 15); its components are not individually range-checked —
  only the resulting `timedelta` magnitude must be under 24 hours;
- year 0 is rejected (`MINYEAR = 1`).

CPython 3.11 widens the accepted language further (bare `HH`, basic formats,
arbitrary fraction lengths); those extensions are outside the modeled library
version.  The result is a point on the proleptic Gregorian timeline in exact
rational seconds (microsecond resolution), plus an awareness flag (an offset
makes the value timezone-aware).  Aware values are normalized to UTC so that
comparison and subtraction are comparisons of `secs`; comparing or subtracting
a naive and an aware datetime raises `TypeError` in Python, which callers
model explicitly.  A string outside the grammar is a `ValueError`
(here: `Option.none`). -/

/-- A parsed `datetime`: seconds on the proleptic Gregorian timeline, a
rational with microsecond resolution (UTC seconds when `aware`, wall-clock
seconds when naive). -/
structure DT where
  secs : Rat
  aware : Bool
  deriving DecidableEq

def leapYear (y : Nat) : Bool :=
  (y % 4 == 0 && y % 100 != 0) || y % 400 == 0

def daysInMonth (y m : Nat) : Nat :=
  if m == 2 then (if leapYear y then 29 else 28)
  else if m == 4 || m == 6 || m == 9 || m == 11 then 30
  else 31

def daysBeforeMonth (y m : Nat) : Nat :=
  (List.range (m - 1)).foldl (fun a k => a + daysInMonth y (k + 1)) 0

/-- `datetime.date(y, m, d).toordinal()` (day 1 = 0001-01-01). -/
def toordinal (y m d : Nat) : Int :=
  365 * ((y : Int) - 1) + ((y : Int) - 1) / 4 - ((y : Int) - 1) / 100
    + ((y : Int) - 1) / 400 + (daysBeforeMonth y m : Int) + (d : Int)

def digitVal (c : Char) : Option Nat :=
  if c.isDigit then some (c.toNat - 48) else Option.none

def num2 (a b : Char) : Option Nat := do
  let x ← digitVal a
  let y ← digitVal b
  pure (10 * x + y)

def num4 (a b c d : Char) : Option Nat := do
  let x ← num2 a b
  let y ← num2 c d
  pure (100 * x + y)

/-- Seconds of midnight of a civil date. -/
def dateSecs (y m d : Nat) : Int := toordinal y m d * 86400

/-- A fraction of a second: exactly 3 or 6 digits (the only lengths the
modeled library accepts), in microseconds. -/
def parseFrac : List Char → Option Nat
  | [a, b, c] => do
    let x ← digitVal a
    let y ← digitVal b
    let z ← digitVal c
    pure ((100 * x + 10 * y + z) * 1000)
  | [a, b, c, d, e, f] => do
    let x1 ← digitVal a
    let x2 ← digitVal b
    let x3 ← digitVal c
    let x4 ← digitVal d
    let x5 ← digitVal e
    let x6 ← digitVal f
    pure (100000 * x1 + 10000 * x2 + 1000 * x3 + 100 * x4 + 10 * x5 + x6)
  | _ => Option.none

/-- The time-of-day components `HH[:MM[:SS[.fff[fff]]]]` of a sign-free time
string: hour, minute, second and microseconds.  Ranges are checked by the
caller (the `datetime` constructor). -/
def parseTimeComps : List Char → Option (Nat × Nat × Nat × Nat)
  | [h1, h2] => do
    let h ← num2 h1 h2
    pure (h, 0, 0, 0)
  | [h1, h2, ':', i1, i2] => do
    let h ← num2 h1 h2
    let mi ← num2 i1 i2
    pure (h, mi, 0, 0)
  | h1 :: h2 :: ':' :: i1 :: i2 :: ':' :: s1 :: s2 :: rest => do
    let h ← num2 h1 h2
    let mi ← num2 i1 i2
    let ss ← num2 s1 s2
    match rest with
    | [] => pure (h, mi, ss, 0)
    | '.' :: frac => do
      let us ← parseFrac frac
      pure (h, mi, ss, us)
    | _ => Option.none
  | _ => Option.none

/-- The UTC offset `HH:MM[:SS[.ffffff]]` after the sign, in microseconds.
Only the three exact shapes of lengths 5, 8 and 15 are accepted, and the
components are not individually range-checked (the library only bounds the
resulting `timedelta` magnitude). -/
def parseOffsetUs : List Char → Option Nat
  | [h1, h2, ':', i1, i2] => do
    let h ← num2 h1 h2
    let mi ← num2 i1 i2
    pure ((h * 3600 + mi * 60) * 1000000)
  | [h1, h2, ':', i1, i2, ':', s1, s2] => do
    let h ← num2 h1 h2
    let mi ← num2 i1 i2
    let ss ← num2 s1 s2
    pure ((h * 3600 + mi * 60 + ss) * 1000000)
  | [h1, h2, ':', i1, i2, ':', s1, s2, '.', f1, f2, f3, f4, f5, f6] => do
    let h ← num2 h1 h2
    let mi ← num2 i1 i2
    let ss ← num2 s1 s2
    let us ← parseFrac [f1, f2, f3, f4, f5, f6]
    pure ((h * 3600 + mi * 60 + ss) * 1000000 + us)
  | _ => Option.none

/-- Split a time string at its first sign character (`'+'` or `'-'`),
returning the part before, the sign, and the part after. -/
def findSign : List Char → Option (List Char × Char × List Char)
  | [] => Option.none
  | c :: cs =>
    if c = '+' || c = '-' then some ([], c, cs)
    else
      match findSign cs with
      | some (pre, sg, post) => some (c :: pre, sg, post)
      | Option.none => Option.none

/-- Model of `datetime.fromisoformat` on the CPython 3.7-3.10 grammar
described above. -/
def fromisoformat (s : String) : Option DT :=
  match s.data with
  | y1 :: y2 :: y3 :: y4 :: '-' :: m1 :: m2 :: '-' :: d1 :: d2 :: rest => do
    let y ← num4 y1 y2 y3 y4
    let m ← num2 m1 m2
    let d ← num2 d1 d2
    guard (1 ≤ y && 1 ≤ m && m ≤ 12 && 1 ≤ d && d ≤ daysInMonth y m)
    match rest with
    | [] => some ⟨mkRat (dateSecs y m d * 1000000) 1000000, false⟩
    | _ :: tstr =>
      match findSign tstr with
      | Option.none => do
        let (h, mi, ss, us) ← parseTimeComps tstr
        guard (h ≤ 23 && mi ≤ 59 && ss ≤ 59)
        let wallUs : Int :=
          (dateSecs y m d + ((3600 * h + 60 * mi + ss : Nat) : Int)) * 1000000
            + ((us : Nat) : Int)
        some ⟨mkRat wallUs 1000000, false⟩
      | some (pre, sg, post) => do
        let (h, mi, ss, us) ← parseTimeComps pre
        guard (h ≤ 23 && mi ≤ 59 && ss ≤ 59)
        let offUs ← parseOffsetUs post
        guard (offUs < 86400000000)
        let wallUs : Int :=
          (dateSecs y m d + ((3600 * h + 60 * mi + ss : Nat) : Int)) * 1000000
            + ((us : Nat) : Int)
        if sg = '+' then some ⟨mkRat (wallUs - (offUs : Int)) 1000000, true⟩
        else some ⟨mkRat (wallUs + (offUs : Int)) 1000000, true⟩
  | _ => Option.none

/-- Character-level model of `str.replace` with the one-character pattern
`'Z'`: every occurrence is replaced by `"+00:00"`. -/
def replaceZchars : List Char → List Char
  | [] => []
  | c :: cs =>
    if c = 'Z' then '+' :: '0' :: '0' :: ':' :: '0' :: '0' :: replaceZchars cs
    else c :: replaceZchars cs

/-- `s.replace('Z', '+00:00')` as the script applies before parsing. -/
def replaceZ (s : String) : String := ⟨replaceZchars s.data⟩

/-! ### The record validator `verify_trade_data` -/

/-- A trade record: a JSON object, i.e. a finite map from field names to values
(modelled as an association list; Python dict keys are unique and lookup is on
the first matching key). -/
abbrev Trade := List (String × PyVal)

/-- `trade[field]` / `field in trade`. -/
def pyGet (t : Trade) (f : String) : Option PyVal := t.lookup f

/-- A validation error or warning message produced by `verify_trade_data`.
The script builds f-strings; we keep the information content structurally:
each constructor records the 1-based record position and the data interpolated
into the message. -/
inductive Msg
  | noTradesFound
  | missingField (pos : Nat) (field : String)
  | invalidEntryPrice (pos : Nat) (v : PyVal)
  | invalidExitPrice (pos : Nat) (v : PyVal)
  | invalidPnlType (pos : Nat) (v : PyVal)
  | negativeDuration (pos : Nat) (v : PyVal)
  | trendStrengthOutOfRange (pos : Nat) (v : PyVal)
  | negativeVolatility (pos : Nat) (v : PyVal)
  | unknownMarketRegime (pos : Nat) (v : PyVal)
  | exitBeforeEntry (pos : Nat)
  | durationMismatch (pos : Nat) (calculated : Rat) (stored : PyVal)
  | invalidDatetime (pos : Nat)
  deriving DecidableEq

/-- The 1-based record position a message refers to (`0` for the
empty-input message, which names no record). -/
def Msg.pos : Msg → Nat
  | .noTradesFound => 0
  | .missingField p _ => p
  | .invalidEntryPrice p _ => p
  | .invalidExitPrice p _ => p
  | .invalidPnlType p _ => p
  | .negativeDuration p _ => p
  | .trendStrengthOutOfRange p _ => p
  | .negativeVolatility p _ => p
  | .unknownMarketRegime p _ => p
  | .exitBeforeEntry p => p
  | .durationMismatch p _ _ => p
  | .invalidDatetime p => p

/-- The `required_fields` list of the script, in source order. -/
def required_fields : List String :=
  ["id", "pair", "entry_price", "exit_price", "pnl",
   "duration_seconds", "entry_time", "exit_time", "success",
   "market_regime", "trend_strength", "volatility", "created_at"]

/-- The `valid_regimes` list of the script. -/
def valid_regimes : List String := ["Consolidating", "Trending", "Volatile"]

/-- `for field in required_fields: if field not in trade: errors.append(...)`. -/
def missingFieldErrors (i : Nat) (t : Trade) : List Msg :=
  (required_fields.filter (fun f => (pyGet t f).isNone)).map (Msg.missingField (i + 1))

/-- `if "entry_price" in trade and trade["entry_price"] <= 0`. -/
def entryPriceCheck (i : Nat) (t : Trade) : Except PyErr (List Msg) :=
  match pyGet t "entry_price" with
  | Option.none => .ok []
  | some v =>
    match pyLE v (.int 0) with
    | .error e => .error e
    | .ok b => .ok (if b then [.invalidEntryPrice (i + 1) v] else [])

/-- `if "exit_price" in trade and trade["exit_price"] <= 0`. -/
def exitPriceCheck (i : Nat) (t : Trade) : Except PyErr (List Msg) :=
  match pyGet t "exit_price" with
  | Option.none => .ok []
  | some v =>
    match pyLE v (.int 0) with
    | .error e => .error e
    | .ok b => .ok (if b then [.invalidExitPrice (i + 1) v] else [])

/-- `if "pnl" in trade and not isinstance(trade["pnl"], (int, float))`. -/
def pnlCheck (i : Nat) (t : Trade) : List Msg :=
  match pyGet t "pnl" with
  | Option.none => []
  | some v => if v.isNumeric then [] else [.invalidPnlType (i + 1) v]

/-- `if "duration_seconds" in trade and trade["duration_seconds"] < 0`. -/
def durationCheck (i : Nat) (t : Trade) : Except PyErr (List Msg) :=
  match pyGet t "duration_seconds" with
  | Option.none => .ok []
  | some v =>
    match pyLT v (.int 0) with
    | .error e => .error e
    | .ok b => .ok (if b then [.negativeDuration (i + 1) v] else [])

/-- `if "trend_strength" in trade and not (0 <= trade["trend_strength"] <= 1)`.
The chained comparison short-circuits: `x <= 1` is only evaluated when
`0 <= x` held. -/
def trendCheck (i : Nat) (t : Trade) : Except PyErr (List Msg) :=
  match pyGet t "trend_strength" with
  | Option.none => .ok []
  | some v =>
    match pyLE (.int 0) v with
    | .error e => .error e
    | .ok b1 =>
      if b1 then
        match pyLE v (.int 1) with
        | .error e => .error e
        | .ok b2 => .ok (if b2 then [] else [.trendStrengthOutOfRange (i + 1) v])
      else .ok [.trendStrengthOutOfRange (i + 1) v]

/-- `if "volatility" in trade and trade["volatility"] < 0`. -/
def volatilityCheck (i : Nat) (t : Trade) : Except PyErr (List Msg) :=
  match pyGet t "volatility" with
  | Option.none => .ok []
  | some v =>
    match pyLT v (.int 0) with
    | .error e => .error e
    | .ok b => .ok (if b then [.negativeVolatility (i + 1) v] else [])

/-- `if "market_regime" in trade and trade["market_regime"] not in valid_regimes`. -/
def regimeCheck (i : Nat) (t : Trade) : List Msg :=
  match pyGet t "market_regime" with
  | Option.none => []
  | some v =>
    if valid_regimes.any (fun r => pyEq v (.str r)) then []
    else [.unknownMarketRegime (i + 1) v]

/-- The `try`/`except ValueError` time-consistency block (source lines 207-221).
`.replace` on a non-string raises `AttributeError` (uncaught); a parse failure
is a `ValueError`, caught by the script's handler, which records one
invalid-datetime error and skips the rest of the block; comparing a naive with
an aware datetime raises `TypeError` (uncaught, since only `ValueError` is
handled); `calculated - trade["duration_seconds"]` with a non-numeric stored
duration likewise raises `TypeError`. -/
def timeCheck (i : Nat) (t : Trade) : Except PyErr (List Msg × List Msg) :=
  match pyGet t "entry_time", pyGet t "exit_time" with
  | some ev, some xv =>
    match ev with
    | .str es =>
      match fromisoformat (replaceZ es) with
      | Option.none => .ok ([.invalidDatetime (i + 1)], [])
      | some de =>
        match xv with
        | .str xs =>
          match fromisoformat (replaceZ xs) with
          | Option.none => .ok ([.invalidDatetime (i + 1)], [])
          | some dx =>
            if de.aware != dx.aware then .error .typeError
            else
              let e := if dx.secs ≤ de.secs then [Msg.exitBeforeEntry (i + 1)] else []
              match pyGet t "duration_seconds" with
              | Option.none => .ok (e, [])
              | some dv =>
                match pyToRat dv with
                | .error er => .error er
                | .ok q =>
                  .ok (e,
                    if 1 < ratAbs (dx.secs - de.secs - q) then
                      [Msg.durationMismatch (i + 1) (dx.secs - de.secs) dv]
                    else [])
        | _ => .error .attributeError
    | _ => .error .attributeError
  | _, _ => .ok ([], [])

/-- One iteration of the `for i, trade in enumerate(trades)` loop: the errors
and warnings contributed by record `t` at 0-based index `i`, or the first
uncaught exception.  List order follows the script's append order. -/
def checkTrade (i : Nat) (t : Trade) : Except PyErr (List Msg × List Msg) :=
  match entryPriceCheck i t with
  | .error e => .error e
  | .ok e2 =>
    match exitPriceCheck i t with
    | .error e => .error e
    | .ok e3 =>
      match durationCheck i t with
      | .error e => .error e
      | .ok w1 =>
        match trendCheck i t with
        | .error e => .error e
        | .ok w2 =>
          match volatilityCheck i t with
          | .error e => .error e
          | .ok w3 =>
            match timeCheck i t with
            | .error e => .error e
            | .ok (e5, w5) =>
              .ok (missingFieldErrors i t ++ e2 ++ e3 ++ pnlCheck i t ++ e5,
                   w1 ++ w2 ++ w3 ++ regimeCheck i t ++ w5)

/-- The whole validation loop, accumulating errors and warnings in record
order starting from 0-based index `k`. -/
def runChecks (k : Nat) : List Trade → Except PyErr (List Msg × List Msg)
  | [] => .ok ([], [])
  | t :: ts =>
    match checkTrade k t with
    | .error e => .error e
    | .ok (e, w) =>
      match runChecks (k + 1) ts with
      | .error e' => .error e'
      | .ok (es, ws) => .ok (e ++ es, w ++ ws)

/-- The dict returned by `verify_trade_data`.  The early-return branch for an
empty input builds a dict with only the `valid` and `errors` keys, so the
`warnings` and `total_trades` keys are modelled as optional. -/
structure Report where
  valid : Bool
  errors : List Msg
  warnings : Option (List Msg)
  total_trades : Option Nat
  deriving DecidableEq

/-- The `warnings` list of a report, defaulting to `[]` when the key is absent. -/
def Report.warningsD (r : Report) : List Msg := r.warnings.getD []

/-- `verify_trade_data` (source lines 164-228). -/
def verify_trade_data (trades : List Trade) : Except PyErr Report :=
  match trades with
  | [] => .ok { valid := false, errors := [.noTradesFound],
                warnings := Option.none, total_trades := Option.none }
  | _ =>
    match runChecks 0 trades with
    | .error e => .error e
    | .ok (es, ws) =>
      .ok { valid := es.length == 0, errors := es,
            warnings := some ws, total_trades := some trades.length }

/-! ### The exporter `export_trades` -/

/-- The fixed `fieldnames` column list of the CSV branch of `export_trades`. -/
def fieldnames : List String :=
  ["id", "pair", "entry_price", "exit_price", "pnl", "duration_seconds",
   "entry_time", "exit_time", "success", "market_regime", "trend_strength",
   "volatility", "created_at"]

/-- `csv.DictWriter(csvfile, fieldnames=fieldnames).writerow(trade)`, modelled
from the csv library: `extrasaction` defaults to `'raise'`, so a record holding
a key outside `fieldnames` raises `ValueError`; otherwise one cell is emitted
per fieldname in order, an absent field yielding the restval (rendered as an
empty cell).  Cells are modelled pre-stringification: `Option.none` is the
empty cell. -/
def writerow (t : Trade) : Except PyErr (List (Option PyVal)) :=
  if t.any (fun kv => !(fieldnames.contains kv.1)) then .error .valueError
  else .ok (fieldnames.map (fun f => pyGet t f))

/-- The `for trade in trades: writer.writerow(trade)` loop. -/
def writerows : List Trade → Except PyErr (List (List (Option PyVal)))
  | [] => .ok []
  | t :: ts =>
    match writerow t with
    | .error e => .error e
    | .ok row =>
      match writerows ts with
      | .error e => .error e
      | .ok rows => .ok (row :: rows)

/-- What `export_trades` produces: nothing for an empty input, a CSV file
(header row plus one row per record), a JSON file, or the
unsupported-format message. -/
inductive ExportOut
  | noTrades
  | csvFile (header : List String) (rows : List (List (Option PyVal)))
  | jsonFile (records : List Trade)
  | unsupported

/-- `format_type.lower()` (character-wise lowering). -/
def pyLower (s : String) : String := ⟨s.data.map Char.toLower⟩

/-- `export_trades` (source lines 230-259), restricted to its file content
(filename generation is not modelled). -/
def export_trades (trades : List Trade) (format_type : String) :
    Except PyErr ExportOut :=
  match trades with
  | [] => .ok .noTrades
  | _ =>
    if pyLower format_type == "csv" then
      match writerows trades with
      | .error e => .error e
      | .ok rows => .ok (.csvFile fieldnames rows)
    else if pyLower format_type == "json" then .ok (.jsonFile trades)
    else .ok .unsupported

/-! ### The transport client

The three fetch methods are thin wrappers around `requests`.  We model the
outside world by the outcome of the `session.get` call: either the request
machinery raised a `RequestException`, or a response arrived with a status
code and a body that either is or is not well-formed JSON.  Everything the
method then does with that outcome is code of the script and modelled
faithfully: `raise_for_status` (from requests: raises `HTTPError`, a
`RequestException`, exactly for status codes 400-599), `response.json()`
(raises `JSONDecodeError` on a malformed body), the truthiness test
`data.get("success")`, the key test `"data" in data`, and `.get` on a
non-dict JSON value raising `AttributeError`. -/

/-- A JSON value, for response bodies. -/
inductive JVal
  | null
  | bool (b : Bool)
  | num (q : Rat)
  | str (s : String)
  | arr (xs : List JVal)
  | obj (kvs : List (String × JVal))

/-- Python truthiness of a JSON-derived value. -/
def truthy : JVal → Bool
  | .null => false
  | .bool b => b
  | .num q => decide (q ≠ 0)
  | .str s => !s.isEmpty
  | .arr xs => !xs.isEmpty
  | .obj kvs => !kvs.isEmpty

/-- `d.get(k)` on a JSON object (association list). -/
def jGet (kvs : List (String × JVal)) (k : String) : Option JVal := kvs.lookup k

/-- The outcome of one `session.get` call. -/
inductive FetchOutcome
  | netError
  | response (status : Nat) (body : Option JVal)

/-- A message printed by a fetch method on a failure path. -/
inductive LogMsg
  | networkError
  | jsonDecodeError
  | serviceError (message : Option JVal)

/-- `response.raise_for_status()` raises `HTTPError` iff the status code is a
4xx client error or a 5xx server error. -/
def raiseForStatus (status : Nat) : Bool := 400 ≤ status && status < 600

/-- `get_ml_trades` (source lines 35-56): returns the printed messages and the
returned value (`data["data"]` on success, the empty list on every handled
failure). -/
def get_ml_trades (o : FetchOutcome) : Except PyErr (List LogMsg × JVal) :=
  match o with
  | .netError => .ok ([.networkError], .arr [])
  | .response status body =>
    if raiseForStatus status then .ok ([.networkError], .arr [])
    else
      match body with
      | Option.none => .ok ([.jsonDecodeError], .arr [])
      | some j =>
        match j with
        | .obj kvs =>
          if truthy ((jGet kvs "success").getD .null) && (jGet kvs "data").isSome then
            .ok ([], (jGet kvs "data").getD .null)
          else .ok ([.serviceError (jGet kvs "message")], .arr [])
        | _ => .error .attributeError

/-- `get_ml_stats` (source lines 58-78): as `get_ml_trades` but returning
`None` (here `Option.none`) on every handled failure. -/
def get_ml_stats (o : FetchOutcome) : Except PyErr (List LogMsg × Option JVal) :=
  match o with
  | .netError => .ok ([.networkError], Option.none)
  | .response status body =>
    if raiseForStatus status then .ok ([.networkError], Option.none)
    else
      match body with
      | Option.none => .ok ([.jsonDecodeError], Option.none)
      | some j =>
        match j with
        | .obj kvs =>
          if truthy ((jGet kvs "success").getD .null) && (jGet kvs "data").isSome then
            .ok ([], jGet kvs "data")
          else .ok ([.serviceError (jGet kvs "message")], Option.none)
        | _ => .error .attributeError

/-- `get_ml_status` (source lines 80-100): identical handling to
`get_ml_stats`. -/
def get_ml_status (o : FetchOutcome) : Except PyErr (List LogMsg × Option JVal) :=
  match o with
  | .netError => .ok ([.networkError], Option.none)
  | .response status body =>
    if raiseForStatus status then .ok ([.networkError], Option.none)
    else
      match body with
      | Option.none => .ok ([.jsonDecodeError], Option.none)
      | some j =>
        match j with
        | .obj kvs =>
          if truthy ((jGet kvs "success").getD .null) && (jGet kvs "data").isSome then
            .ok ([], jGet kvs "data")
          else .ok ([.serviceError (jGet kvs "message")], Option.none)
        | _ => .error .attributeError

/-- The messages a fetch returned without an uncaught exception. -/
def tradeLogs (e : Except PyErr (List LogMsg × JVal)) : Option (List LogMsg) :=
  match e with
  | .ok (ms, _) => some ms
  | .error _ => Option.none

/-- The value a trades fetch returned without an uncaught exception. -/
def tradeResult (e : Except PyErr (List LogMsg × JVal)) : Option JVal :=
  match e with
  | .ok (_, v) => some v
  | .error _ => Option.none

/-- The messages a stats/status fetch returned without an uncaught exception. -/
def optLogs (e : Except PyErr (List LogMsg × Option JVal)) : Option (List LogMsg) :=
  match e with
  | .ok (ms, _) => some ms
  | .error _ => Option.none

/-- The value a stats/status fetch returned without an uncaught exception. -/
def optResult (e : Except PyErr (List LogMsg × Option JVal)) : Option (Option JVal) :=
  match e with
  | .ok (_, v) => some v
  | .error _ => Option.none

/-! ### The session timeout

`MLTradeQuery.__init__` executes `self.session.timeout = 10`, which merely
stores an attribute on the `requests.Session` object.  Modelled from the
requests library: `Session.get` sends the request with the timeout passed as
the explicit `timeout=` keyword argument of that call; when the argument is
omitted the timeout is `None` (wait indefinitely).  Attributes assigned onto
the session object are never consulted by `Session.request`. -/

/-- The client object built by `MLTradeQuery.__init__` (source lines 30-33). -/
structure MLTradeQuery where
  database_url : String
  /-- the value assigned by `self.session.timeout = 10` -/
  session_timeout_attr : Option Nat

/-- `MLTradeQuery.__init__`. -/
def MLTradeQuery.init (database_url : String) : MLTradeQuery :=
  { database_url := database_url.dropRightWhile (fun c => c == '/'),
    session_timeout_attr := some 10 }

/-- The effective socket timeout of a `Session.get` call, as a function of the
`timeout=` keyword argument of that call (requests semantics; the session
attribute plays no role). -/
def sessionGetTimeout (q : MLTradeQuery) (kwargTimeout : Option Nat) : Option Nat :=
  kwargTimeout

/-- `self.session.get(url, params=params)` in `get_ml_trades` line 41 passes no
`timeout=` argument. -/
def get_ml_trades_timeout (q : MLTradeQuery) : Option Nat :=
  sessionGetTimeout q Option.none

/-- `self.session.get(url)` in `get_ml_stats` line 63 passes no `timeout=`
argument. -/
def get_ml_stats_timeout (q : MLTradeQuery) : Option Nat :=
  sessionGetTimeout q Option.none

/-- `self.session.get(url)` in `get_ml_status` line 85 passes no `timeout=`
argument. -/
def get_ml_status_timeout (q : MLTradeQuery) : Option Nat :=
  sessionGetTimeout q Option.none

/-! ### Message discriminators -/

/-- Is this the missing-required-field error for field `f` of the record at
1-based position `p`? -/
def isMissingFieldAt (p : Nat) (f : String) : Msg → Bool
  | .missingField q g => q == p && g == f
  | _ => false

/-- Is this the invalid-pnl-type error of the record at position `p`? -/
def isInvalidPnlAt (p : Nat) : Msg → Bool
  | .invalidPnlType q _ => q == p
  | _ => false

/-- Is this the exit-before-entry error of the record at position `p`? -/
def isExitBeforeEntryAt (p : Nat) : Msg → Bool
  | .exitBeforeEntry q => q == p
  | _ => false

/-- Is this the duration-mismatch warning of the record at position `p`? -/
def isDurMismatchAt (p : Nat) : Msg → Bool
  | .durationMismatch q _ _ => q == p
  | _ => false

/-- Is this the invalid-datetime-format error of the record at position `p`? -/
def isInvalidDatetimeAt (p : Nat) : Msg → Bool
  | .invalidDatetime q => q == p
  | _ => false

/-! ### Well-typed records: the fragment of inputs on which the validator
cannot raise.

`verify_trade_data` raises an uncaught exception exactly when a present field
has a shape the checks do not tolerate: a non-number in one of the compared
numeric fields, a non-string timestamp (`.replace` → `AttributeError`), a
non-number `duration_seconds` next to two parsed timestamps, or two parsed
timestamps of different awareness (`TypeError` on comparison).  `wellTyped`
rules those out; `pnl`, `success`, `id`, `pair`, `market_regime` and
`created_at` may hold anything, and the timestamp strings may be arbitrarily
malformed. -/

/-- Field `f`, when present, holds a number (`bool`, `int` or `float`). -/
def numOk (t : Trade) (f : String) : Bool :=
  match pyGet t f with
  | some v => v.isNumeric
  | Option.none => true

/-- Field `f`, when present, holds a string. -/
def strOk (t : Trade) (f : String) : Bool :=
  match pyGet t f with
  | some (.str _) => true
  | some _ => false
  | Option.none => true

/-- The two timestamp strings, if both parse, agree on timezone-awareness. -/
def awareOk2 (es xs : String) : Bool :=
  match fromisoformat (replaceZ es), fromisoformat (replaceZ xs) with
  | some de, some dx => de.aware == dx.aware
  | _, _ => true

/-- When both timestamps are present strings and both parse, they agree on
timezone-awareness (otherwise Python's datetime comparison raises
`TypeError`). -/
def awareOk (t : Trade) : Bool :=
  match pyGet t "entry_time", pyGet t "exit_time" with
  | some (.str es), some (.str xs) => awareOk2 es xs
  | _, _ => true

/-- A record the validator can process without an uncaught exception. -/
def wellTyped (t : Trade) : Bool :=
  numOk t "entry_price" && numOk t "exit_price" && numOk t "duration_seconds" &&
  numOk t "trend_strength" && numOk t "volatility" &&
  strOk t "entry_time" && strOk t "exit_time" && awareOk t

/-! ### Outcome classes and projections used in the claim statements -/

/-- Did the call finish without an uncaught exception? -/
def isOkB (e : Except PyErr Report) : Bool :=
  match e with
  | .ok _ => true
  | .error _ => false

/-- The transport outcomes classified as failures: a raised request exception,
a client/server error status (400-599), a body that is not well-formed JSON,
or a JSON-object body whose `success` field is `false`. -/
def failureOutcome : FetchOutcome → Prop
  | .netError => True
  | .response status body =>
    (400 ≤ status ∧ status < 600) ∨ body = Option.none ∨
    (∃ kvs, body = some (.obj kvs) ∧ jGet kvs "success" = some (.bool false))

/-! ### Shape lemmas for the validator components -/

theorem missingFieldErrors_mem (i : Nat) (t : Trade) (m : Msg)
    (h : m ∈ missingFieldErrors i t) :
    ∃ f, f ∈ required_fields ∧ (pyGet t f).isNone ∧ m = .missingField (i + 1) f := by
  unfold missingFieldErrors at h
  rcases List.mem_map.mp h with ⟨f, hf, rfl⟩
  rcases List.mem_filter.mp hf with ⟨hf1, hf2⟩
  exact ⟨f, hf1, hf2, rfl⟩

theorem entryPriceCheck_shape (i : Nat) (t : Trade) (l : List Msg)
    (h : entryPriceCheck i t = .ok l) :
    l = [] ∨ ∃ v, l = [.invalidEntryPrice (i + 1) v] := by
  unfold entryPriceCheck at h
  split at h
  · exact Or.inl (Except.ok.inj h).symm
  · rename_i v _
    split at h
    · simp at h
    · have hl := (Except.ok.inj h).symm
      subst hl
      split
      · exact Or.inr ⟨v, rfl⟩
      · exact Or.inl rfl

theorem exitPriceCheck_shape (i : Nat) (t : Trade) (l : List Msg)
    (h : exitPriceCheck i t = .ok l) :
    l = [] ∨ ∃ v, l = [.invalidExitPrice (i + 1) v] := by
  unfold exitPriceCheck at h
  split at h
  · exact Or.inl (Except.ok.inj h).symm
  · rename_i v _
    split at h
    · simp at h
    · have hl := (Except.ok.inj h).symm
      subst hl
      split
      · exact Or.inr ⟨v, rfl⟩
      · exact Or.inl rfl

theorem pnlCheck_shape (i : Nat) (t : Trade) :
    pnlCheck i t = [] ∨ ∃ v, pnlCheck i t = [.invalidPnlType (i + 1) v] := by
  unfold pnlCheck
  split
  · exact Or.inl rfl
  · rename_i v _
    split
    · exact Or.inl rfl
    · exact Or.inr ⟨v, rfl⟩

theorem durationCheck_shape (i : Nat) (t : Trade) (l : List Msg)
    (h : durationCheck i t = .ok l) :
    l = [] ∨ ∃ v, l = [.negativeDuration (i + 1) v] := by
  unfold durationCheck at h
  split at h
  · exact Or.inl (Except.ok.inj h).symm
  · rename_i v _
    split at h
    · simp at h
    · have hl := (Except.ok.inj h).symm
      subst hl
      split
      · exact Or.inr ⟨v, rfl⟩
      · exact Or.inl rfl

theorem trendCheck_shape (i : Nat) (t : Trade) (l : List Msg)
    (h : trendCheck i t = .ok l) :
    l = [] ∨ ∃ v, l = [.trendStrengthOutOfRange (i + 1) v] := by
  unfold trendCheck at h
  split at h
  · exact Or.inl (Except.ok.inj h).symm
  · rename_i v _
    split at h
    · simp at h
    · split at h
      · split at h
        · simp at h
        · have hl := (Except.ok.inj h).symm
          subst hl
          split
          · exact Or.inl rfl
          · exact Or.inr ⟨v, rfl⟩
      · exact Or.inr ⟨v, (Except.ok.inj h).symm⟩

theorem volatilityCheck_shape (i : Nat) (t : Trade) (l : List Msg)
    (h : volatilityCheck i t = .ok l) :
    l = [] ∨ ∃ v, l = [.negativeVolatility (i + 1) v] := by
  unfold volatilityCheck at h
  split at h
  · exact Or.inl (Except.ok.inj h).symm
  · rename_i v _
    split at h
    · simp at h
    · have hl := (Except.ok.inj h).symm
      subst hl
      split
      · exact Or.inr ⟨v, rfl⟩
      · exact Or.inl rfl

theorem regimeCheck_shape (i : Nat) (t : Trade) :
    regimeCheck i t = [] ∨ ∃ v, regimeCheck i t = [.unknownMarketRegime (i + 1) v] := by
  unfold regimeCheck
  split
  · exact Or.inl rfl
  · rename_i v _
    split
    · exact Or.inl rfl
    · exact Or.inr ⟨v, rfl⟩

theorem timeCheck_shape (i : Nat) (t : Trade) (e w : List Msg)
    (h : timeCheck i t = .ok (e, w)) :
    (e = [] ∨ e = [.invalidDatetime (i + 1)] ∨ e = [.exitBeforeEntry (i + 1)]) ∧
    (w = [] ∨ ∃ c v, w = [.durationMismatch (i + 1) c v]) := by
  unfold timeCheck at h
  repeat' split at h
  all_goals simp at h
  all_goals obtain ⟨he, hw⟩ := h
  all_goals subst he
  all_goals subst hw
  all_goals refine ⟨?_, ?_⟩
  all_goals first
    | exact Or.inl rfl
    | exact Or.inr (Or.inl rfl)
    | exact Or.inr (Or.inr rfl)
    | exact Or.inr ⟨_, _, rfl⟩

/-! ### Decomposition and position lemmas -/

theorem checkTrade_decomp (i : Nat) (t : Trade) (e w : List Msg)
    (h : checkTrade i t = .ok (e, w)) :
    ∃ e2 e3 w1 w2 w3 e5 w5,
      entryPriceCheck i t = .ok e2 ∧ exitPriceCheck i t = .ok e3 ∧
      durationCheck i t = .ok w1 ∧ trendCheck i t = .ok w2 ∧
      volatilityCheck i t = .ok w3 ∧ timeCheck i t = .ok (e5, w5) ∧
      e = missingFieldErrors i t ++ e2 ++ e3 ++ pnlCheck i t ++ e5 ∧
      w = w1 ++ w2 ++ w3 ++ regimeCheck i t ++ w5 := by
  unfold checkTrade at h
  split at h
  · simp at h
  · rename_i e2 he2
    split at h
    · simp at h
    · rename_i e3 he3
      split at h
      · simp at h
      · rename_i w1 hw1
        split at h
        · simp at h
        · rename_i w2 hw2
          split at h
          · simp at h
          · rename_i w3 hw3
            split at h
            · simp at h
            · rename_i e5 w5 h5
              simp only [Except.ok.injEq, Prod.mk.injEq] at h
              exact ⟨e2, e3, w1, w2, w3, e5, w5, he2, he3, hw1, hw2, hw3, h5,
                h.1.symm, h.2.symm⟩

theorem checkTrade_pos (i : Nat) (t : Trade) (e w : List Msg)
    (h : checkTrade i t = .ok (e, w)) (m : Msg) (hm : m ∈ e ∨ m ∈ w) :
    Msg.pos m = i + 1 := by
  obtain ⟨e2, e3, w1, w2, w3, e5, w5, he2, he3, hw1, hw2, hw3, h5, he, hw⟩ :=
    checkTrade_decomp i t e w h
  subst he hw
  rcases hm with hm | hm
  · simp only [List.mem_append] at hm
    rcases hm with ((((hm | hm) | hm) | hm) | hm)
    · obtain ⟨f, -, -, rfl⟩ := missingFieldErrors_mem i t m hm
      rfl
    · rcases entryPriceCheck_shape i t e2 he2 with rfl | ⟨v, rfl⟩
      · simp at hm
      · simp at hm
        subst hm; rfl
    · rcases exitPriceCheck_shape i t e3 he3 with rfl | ⟨v, rfl⟩
      · simp at hm
      · simp at hm
        subst hm; rfl
    · rcases pnlCheck_shape i t with hp | ⟨v, hp⟩ <;> rw [hp] at hm
      · simp at hm
      · simp at hm
        subst hm; rfl
    · rcases (timeCheck_shape i t e5 w5 h5).1 with rfl | rfl | rfl
      · simp at hm
      · simp at hm
        subst hm; rfl
      · simp at hm
        subst hm; rfl
  · simp only [List.mem_append] at hm
    rcases hm with ((((hm | hm) | hm) | hm) | hm)
    · rcases durationCheck_shape i t w1 hw1 with rfl | ⟨v, rfl⟩
      · simp at hm
      · simp at hm
        subst hm; rfl
    · rcases trendCheck_shape i t w2 hw2 with rfl | ⟨v, rfl⟩
      · simp at hm
      · simp at hm
        subst hm; rfl
    · rcases volatilityCheck_shape i t w3 hw3 with rfl | ⟨v, rfl⟩
      · simp at hm
      · simp at hm
        subst hm; rfl
    · rcases regimeCheck_shape i t with hp | ⟨v, hp⟩ <;> rw [hp] at hm
      · simp at hm
      · simp at hm
        subst hm; rfl
    · rcases (timeCheck_shape i t e5 w5 h5).2 with rfl | ⟨c, v, rfl⟩
      · simp at hm
      · simp at hm
        subst hm; rfl

theorem runChecks_pos_lb :
    ∀ (ts : List Trade) (k : Nat) (es ws : List Msg),
      runChecks k ts = .ok (es, ws) →
      ∀ m, (m ∈ es ∨ m ∈ ws) → k + 1 ≤ Msg.pos m := by
  intro ts
  induction ts with
  | nil =>
    intro k es ws h m hm
    simp only [runChecks, Except.ok.injEq, Prod.mk.injEq] at h
    obtain ⟨hes, hws⟩ := h
    subst hes
    subst hws
    rcases hm with hm | hm <;> simp at hm
  | cons t0 ts ih =>
    intro k es ws h m hm
    unfold runChecks at h
    split at h
    · simp at h
    · rename_i e w hct
      split at h
      · simp at h
      · rename_i es' ws' hrc
        simp only [Except.ok.injEq, Prod.mk.injEq] at h
        obtain ⟨hes, hws⟩ := h
        subst hes hws
        rcases hm with hm | hm
        · rcases List.mem_append.mp hm with hm | hm
          · exact le_of_eq (checkTrade_pos k t0 e w hct m (Or.inl hm)).symm
          · have := ih (k + 1) es' ws' hrc m (Or.inl hm)
            omega
        · rcases List.mem_append.mp hm with hm | hm
          · exact le_of_eq (checkTrade_pos k t0 e w hct m (Or.inr hm)).symm
          · have := ih (k + 1) es' ws' hrc m (Or.inr hm)
            omega

theorem runChecks_countP (P : Msg → Bool) :
    ∀ (ts : List Trade) (k : Nat) (es ws : List Msg) (i : Nat) (t : Trade),
      runChecks k ts = .ok (es, ws) → ts.get? i = some t →
      (∀ m, P m = true → Msg.pos m = k + i + 1) →
      ∃ e w, checkTrade (k + i) t = .ok (e, w) ∧
        es.countP P = e.countP P ∧ ws.countP P = w.countP P := by
  intro ts
  induction ts with
  | nil =>
    intro k es ws i t h hget hP
    simp at hget
  | cons t0 ts ih =>
    intro k es ws i t h hget hP
    unfold runChecks at h
    split at h
    · simp at h
    · rename_i e w hct
      split at h
      · simp at h
      · rename_i es' ws' hrc
        simp only [Except.ok.injEq, Prod.mk.injEq] at h
        obtain ⟨hes, hws⟩ := h
        subst hes hws
        cases i with
        | zero =>
          simp only [List.get?] at hget
          cases hget
          refine ⟨e, w, hct, ?_, ?_⟩
          · rw [List.countP_append]
            have hz : es'.countP P = 0 := by
              rw [List.countP_eq_zero]
              intro m hm hPm
              have h1 := runChecks_pos_lb ts (k + 1) es' ws' hrc m (Or.inl hm)
              have h2 := hP m hPm
              omega
            omega
          · rw [List.countP_append]
            have hz : ws'.countP P = 0 := by
              rw [List.countP_eq_zero]
              intro m hm hPm
              have h1 := runChecks_pos_lb ts (k + 1) es' ws' hrc m (Or.inr hm)
              have h2 := hP m hPm
              omega
            omega
        | succ j =>
          have hP' : ∀ m, P m = true → Msg.pos m = (k + 1) + j + 1 := by
            intro m hm
            have := hP m hm
            omega
          obtain ⟨e', w', hct', h1, h2⟩ :=
            ih (k + 1) es' ws' j t hrc (by simpa using hget) hP'
          have hidx : k + 1 + j = k + (j + 1) := by omega
          rw [hidx] at hct'
          refine ⟨e', w', hct', ?_, ?_⟩
          · rw [List.countP_append, h1]
            have hz : e.countP P = 0 := by
              rw [List.countP_eq_zero]
              intro m hm hPm
              have h1 := checkTrade_pos k t0 e w hct m (Or.inl hm)
              have h2 := hP m hPm
              omega
            omega
          · rw [List.countP_append, h2]
            have hz : w.countP P = 0 := by
              rw [List.countP_eq_zero]
              intro m hm hPm
              have h1 := checkTrade_pos k t0 e w hct m (Or.inr hm)
              have h2 := hP m hPm
              omega
            omega

/-- Per-record counting at the level of `verify_trade_data`: when the whole
validation succeeded, the number of messages satisfying a predicate that pins
the 1-based position `i + 1` equals the count contributed by record `i` alone. -/
theorem verify_countP (P : Msg → Bool) (i : Nat) (trades : List Trade) (t : Trade)
    (r : Report) (hv : verify_trade_data trades = .ok r)
    (hget : trades.get? i = some t)
    (hP : ∀ m, P m = true → Msg.pos m = i + 1) :
    ∃ e w, checkTrade i t = .ok (e, w) ∧
      r.errors.countP P = e.countP P ∧ r.warningsD.countP P = w.countP P := by
  cases trades with
  | nil => simp at hget
  | cons t0 ts =>
    unfold verify_trade_data at hv
    split at hv
    · rename_i heq
      simp at heq
    · split at hv
      · simp at hv
      · rename_i es ws hrc
        obtain rfl := (Except.ok.inj hv).symm
        have hP' : ∀ m, P m = true → Msg.pos m = 0 + i + 1 := by
          intro m hm
          have := hP m hm
          omega
        obtain ⟨e, w, hct, h1, h2⟩ :=
          runChecks_countP P (t0 :: ts) 0 es ws i t hrc hget hP'
        rw [Nat.zero_add] at hct
        exact ⟨e, w, hct, h1, by simpa [Report.warningsD] using h2⟩

/-! ### Characterizations of the time-consistency block -/

theorem timeCheck_eq (i : Nat) (t : Trade) (es xs : String) (de dx : DT)
    (he : pyGet t "entry_time" = some (.str es))
    (hx : pyGet t "exit_time" = some (.str xs))
    (hpe : fromisoformat (replaceZ es) = some de)
    (hpx : fromisoformat (replaceZ xs) = some dx) :
    timeCheck i t =
      (if de.aware != dx.aware then .error .typeError
       else
        match pyGet t "duration_seconds" with
        | Option.none =>
          .ok (if dx.secs ≤ de.secs then [Msg.exitBeforeEntry (i + 1)] else [], [])
        | some dv =>
          match pyToRat dv with
          | .error er => .error er
          | .ok q =>
            .ok (if dx.secs ≤ de.secs then [Msg.exitBeforeEntry (i + 1)] else [],
              if 1 < ratAbs (dx.secs - de.secs - q) then
                [Msg.durationMismatch (i + 1) (dx.secs - de.secs) dv]
              else [])) := by
  unfold timeCheck
  rw [he, hx]
  simp only [hpe, hpx]

theorem timeCheck_badEntry (i : Nat) (t : Trade) (es xs : String)
    (he : pyGet t "entry_time" = some (.str es))
    (hx : pyGet t "exit_time" = some (.str xs))
    (hpe : fromisoformat (replaceZ es) = Option.none) :
    timeCheck i t = .ok ([.invalidDatetime (i + 1)], []) := by
  unfold timeCheck
  rw [he, hx]
  simp only [hpe]

theorem timeCheck_badExit (i : Nat) (t : Trade) (es xs : String) (de : DT)
    (he : pyGet t "entry_time" = some (.str es))
    (hx : pyGet t "exit_time" = some (.str xs))
    (hpe : fromisoformat (replaceZ es) = some de)
    (hpx : fromisoformat (replaceZ xs) = Option.none) :
    timeCheck i t = .ok ([.invalidDatetime (i + 1)], []) := by
  unfold timeCheck
  rw [he, hx]
  simp only [hpe, hpx]

theorem timeCheck_parsed (i : Nat) (t : Trade) (es xs : String) (de dx : DT)
    (e w : List Msg)
    (he : pyGet t "entry_time" = some (.str es))
    (hx : pyGet t "exit_time" = some (.str xs))
    (hpe : fromisoformat (replaceZ es) = some de)
    (hpx : fromisoformat (replaceZ xs) = some dx)
    (h : timeCheck i t = .ok (e, w)) :
    de.aware = dx.aware ∧
    e = (if dx.secs ≤ de.secs then [Msg.exitBeforeEntry (i + 1)] else []) ∧
    ((pyGet t "duration_seconds" = Option.none ∧ w = []) ∨
      (∃ dv q, pyGet t "duration_seconds" = some dv ∧ pyToRat dv = .ok q ∧
        w = (if 1 < ratAbs (dx.secs - de.secs - q) then
              [Msg.durationMismatch (i + 1) (dx.secs - de.secs) dv]
            else []))) := by
  rw [timeCheck_eq i t es xs de dx he hx hpe hpx] at h
  by_cases haw : de.aware = dx.aware
  · rw [if_neg (by simp [haw])] at h
    split at h
    · rename_i hd
      simp only [Except.ok.injEq, Prod.mk.injEq] at h
      exact ⟨haw, h.1.symm, Or.inl ⟨hd, h.2.symm⟩⟩
    · rename_i dv hd
      split at h
      · simp at h
      · rename_i q hq
        simp only [Except.ok.injEq, Prod.mk.injEq] at h
        exact ⟨haw, h.1.symm, Or.inr ⟨dv, q, hd, hq, h.2.symm⟩⟩
  · rw [if_pos (by simp [haw])] at h
    simp at h

theorem isMissingFieldAt_pos (p : Nat) (f : String) (m : Msg)
    (h : isMissingFieldAt p f m = true) : Msg.pos m = p := by
  cases m <;> simp [isMissingFieldAt] at h
  exact h.1

theorem isInvalidPnlAt_pos (p : Nat) (m : Msg)
    (h : isInvalidPnlAt p m = true) : Msg.pos m = p := by
  cases m <;> simp [isInvalidPnlAt] at h
  exact h

theorem isExitBeforeEntryAt_pos (p : Nat) (m : Msg)
    (h : isExitBeforeEntryAt p m = true) : Msg.pos m = p := by
  cases m <;> simp [isExitBeforeEntryAt] at h
  exact h

theorem isDurMismatchAt_pos (p : Nat) (m : Msg)
    (h : isDurMismatchAt p m = true) : Msg.pos m = p := by
  cases m <;> simp [isDurMismatchAt] at h
  exact h

theorem isInvalidDatetimeAt_pos (p : Nat) (m : Msg)
    (h : isInvalidDatetimeAt p m = true) : Msg.pos m = p := by
  cases m <;> simp [isInvalidDatetimeAt] at h
  exact h

theorem required_fields_nodup : required_fields.Nodup := by decide

theorem countP_missingFieldErrors_zero (P : Msg → Bool) (i : Nat) (t : Trade)
    (hP : ∀ p f, P (.missingField p f) = false) :
    (missingFieldErrors i t).countP P = 0 := by
  rw [List.countP_eq_zero]
  intro m hm
  obtain ⟨f, -, -, rfl⟩ := missingFieldErrors_mem i t m hm
  simp [hP]

/-! ### Per-record message counts -/

theorem countP_missingFieldErrors_one (i : Nat) (t : Trade) (f : String)
    (hf : f ∈ required_fields) (hab : pyGet t f = Option.none) :
    (missingFieldErrors i t).countP (isMissingFieldAt (i + 1) f) = 1 := by
  unfold missingFieldErrors
  rw [List.countP_map]
  have hcomp : (isMissingFieldAt (i + 1) f ∘ Msg.missingField (i + 1))
      = (fun g => g == f) := by
    funext g
    simp [isMissingFieldAt, Function.comp]
  rw [hcomp]
  rw [show (List.filter (fun g => (pyGet t g).isNone) required_fields).countP (fun g => g == f)
      = (List.filter (fun g => (pyGet t g).isNone) required_fields).count f from
    (List.count_eq_countP f _).symm]
  rw [List.count_filter (by simp [hab])]
  exact List.count_eq_one_of_mem required_fields_nodup hf

theorem checkTrade_countP_missing (i : Nat) (t : Trade) (f : String)
    (hf : f ∈ required_fields) (hab : pyGet t f = Option.none)
    (e w : List Msg) (h : checkTrade i t = .ok (e, w)) :
    e.countP (isMissingFieldAt (i + 1) f) = 1 := by
  obtain ⟨e2, e3, w1, w2, w3, e5, w5, he2, he3, hw1, hw2, hw3, h5, rfl, -⟩ :=
    checkTrade_decomp i t e w h
  simp only [List.countP_append]
  have z2 : e2.countP (isMissingFieldAt (i + 1) f) = 0 := by
    rcases entryPriceCheck_shape i t e2 he2 with rfl | ⟨v, rfl⟩ <;>
      simp [List.countP_cons, isMissingFieldAt]
  have z3 : e3.countP (isMissingFieldAt (i + 1) f) = 0 := by
    rcases exitPriceCheck_shape i t e3 he3 with rfl | ⟨v, rfl⟩ <;>
      simp [List.countP_cons, isMissingFieldAt]
  have z4 : (pnlCheck i t).countP (isMissingFieldAt (i + 1) f) = 0 := by
    rcases pnlCheck_shape i t with hp | ⟨v, hp⟩ <;> rw [hp] <;>
      simp [List.countP_cons, isMissingFieldAt]
  have z5 : e5.countP (isMissingFieldAt (i + 1) f) = 0 := by
    rcases (timeCheck_shape i t e5 w5 h5).1 with rfl | rfl | rfl <;>
      simp [List.countP_cons, isMissingFieldAt]
  rw [countP_missingFieldErrors_one i t f hf hab, z2, z3, z4, z5]

theorem checkTrade_countP_pnl_bool (i : Nat) (t : Trade) (b : Bool)
    (hp : pyGet t "pnl" = some (.bool b))
    (e w : List Msg) (h : checkTrade i t = .ok (e, w)) :
    e.countP (isInvalidPnlAt (i + 1)) = 0 := by
  obtain ⟨e2, e3, w1, w2, w3, e5, w5, he2, he3, hw1, hw2, hw3, h5, rfl, -⟩ :=
    checkTrade_decomp i t e w h
  simp only [List.countP_append]
  have z1 : (missingFieldErrors i t).countP (isInvalidPnlAt (i + 1)) = 0 :=
    countP_missingFieldErrors_zero _ i t (fun p g => rfl)
  have z2 : e2.countP (isInvalidPnlAt (i + 1)) = 0 := by
    rcases entryPriceCheck_shape i t e2 he2 with rfl | ⟨v, rfl⟩ <;>
      simp [List.countP_cons, isInvalidPnlAt]
  have z3 : e3.countP (isInvalidPnlAt (i + 1)) = 0 := by
    rcases exitPriceCheck_shape i t e3 he3 with rfl | ⟨v, rfl⟩ <;>
      simp [List.countP_cons, isInvalidPnlAt]
  have z4 : (pnlCheck i t).countP (isInvalidPnlAt (i + 1)) = 0 := by
    unfold pnlCheck
    rw [hp]
    simp [PyVal.isNumeric]
  have z5 : e5.countP (isInvalidPnlAt (i + 1)) = 0 := by
    rcases (timeCheck_shape i t e5 w5 h5).1 with rfl | rfl | rfl <;>
      simp [List.countP_cons, isInvalidPnlAt]
  rw [z1, z2, z3, z4, z5]

theorem checkTrade_countP_exitBeforeEntry (i : Nat) (t : Trade) (es xs : String)
    (de dx : DT)
    (he : pyGet t "entry_time" = some (.str es))
    (hx : pyGet t "exit_time" = some (.str xs))
    (hpe : fromisoformat (replaceZ es) = some de)
    (hpx : fromisoformat (replaceZ xs) = some dx)
    (hle : dx.secs ≤ de.secs)
    (e w : List Msg) (h : checkTrade i t = .ok (e, w)) :
    e.countP (isExitBeforeEntryAt (i + 1)) = 1 := by
  obtain ⟨e2, e3, w1, w2, w3, e5, w5, he2, he3, hw1, hw2, hw3, h5, rfl, -⟩ :=
    checkTrade_decomp i t e w h
  simp only [List.countP_append]
  have z1 : (missingFieldErrors i t).countP (isExitBeforeEntryAt (i + 1)) = 0 :=
    countP_missingFieldErrors_zero _ i t (fun p g => rfl)
  have z2 : e2.countP (isExitBeforeEntryAt (i + 1)) = 0 := by
    rcases entryPriceCheck_shape i t e2 he2 with rfl | ⟨v, rfl⟩ <;>
      simp [List.countP_cons, isExitBeforeEntryAt]
  have z3 : e3.countP (isExitBeforeEntryAt (i + 1)) = 0 := by
    rcases exitPriceCheck_shape i t e3 he3 with rfl | ⟨v, rfl⟩ <;>
      simp [List.countP_cons, isExitBeforeEntryAt]
  have z4 : (pnlCheck i t).countP (isExitBeforeEntryAt (i + 1)) = 0 := by
    rcases pnlCheck_shape i t with hp | ⟨v, hp⟩ <;> rw [hp] <;>
      simp [List.countP_cons, isExitBeforeEntryAt]
  have o5 : e5.countP (isExitBeforeEntryAt (i + 1)) = 1 := by
    obtain ⟨-, rfl, -⟩ := timeCheck_parsed i t es xs de dx e5 w5 he hx hpe hpx h5
    rw [if_pos hle]
    simp [List.countP_cons, isExitBeforeEntryAt]
  rw [z1, z2, z3, z4, o5]

theorem checkTrade_countP_durMismatch (i : Nat) (t : Trade) (es xs : String)
    (de dx : DT) (dv : PyVal) (q : Rat)
    (he : pyGet t "entry_time" = some (.str es))
    (hx : pyGet t "exit_time" = some (.str xs))
    (hpe : fromisoformat (replaceZ es) = some de)
    (hpx : fromisoformat (replaceZ xs) = some dx)
    (hd : pyGet t "duration_seconds" = some dv)
    (hq : pyToRat dv = .ok q)
    (e w : List Msg) (h : checkTrade i t = .ok (e, w)) :
    w.countP (isDurMismatchAt (i + 1)) =
      (if 1 < ratAbs (dx.secs - de.secs - q) then 1 else 0) := by
  obtain ⟨e2, e3, w1, w2, w3, e5, w5, he2, he3, hw1, hw2, hw3, h5, -, rfl⟩ :=
    checkTrade_decomp i t e w h
  simp only [List.countP_append]
  have z1 : w1.countP (isDurMismatchAt (i + 1)) = 0 := by
    rcases durationCheck_shape i t w1 hw1 with rfl | ⟨v, rfl⟩ <;>
      simp [List.countP_cons, isDurMismatchAt]
  have z2 : w2.countP (isDurMismatchAt (i + 1)) = 0 := by
    rcases trendCheck_shape i t w2 hw2 with rfl | ⟨v, rfl⟩ <;>
      simp [List.countP_cons, isDurMismatchAt]
  have z3 : w3.countP (isDurMismatchAt (i + 1)) = 0 := by
    rcases volatilityCheck_shape i t w3 hw3 with rfl | ⟨v, rfl⟩ <;>
      simp [List.countP_cons, isDurMismatchAt]
  have z4 : (regimeCheck i t).countP (isDurMismatchAt (i + 1)) = 0 := by
    rcases regimeCheck_shape i t with hp | ⟨v, hp⟩ <;> rw [hp] <;>
      simp [List.countP_cons, isDurMismatchAt]
  have o5 : w5.countP (isDurMismatchAt (i + 1)) =
      (if 1 < ratAbs (dx.secs - de.secs - q) then 1 else 0) := by
    obtain ⟨-, -, hw5⟩ := timeCheck_parsed i t es xs de dx e5 w5 he hx hpe hpx h5
    rcases hw5 with ⟨hnone, -⟩ | ⟨dv', q', hd', hq', rfl⟩
    · rw [hd] at hnone
      cases hnone
    · rw [hd] at hd'
      obtain rfl := (Option.some.inj hd').symm
      rw [hq] at hq'
      obtain rfl := (Except.ok.inj hq').symm
      split <;> simp [List.countP_cons, isDurMismatchAt]
  rw [z1, z2, z3, z4, o5]
  simp

theorem checkTrade_countP_invalidDT (i : Nat) (t : Trade) (es xs : String)
    (he : pyGet t "entry_time" = some (.str es))
    (hx : pyGet t "exit_time" = some (.str xs))
    (hbad : fromisoformat (replaceZ es) = Option.none ∨
            fromisoformat (replaceZ xs) = Option.none)
    (e w : List Msg) (h : checkTrade i t = .ok (e, w)) :
    e.countP (isInvalidDatetimeAt (i + 1)) = 1 := by
  obtain ⟨e2, e3, w1, w2, w3, e5, w5, he2, he3, hw1, hw2, hw3, h5, rfl, -⟩ :=
    checkTrade_decomp i t e w h
  simp only [List.countP_append]
  have z1 : (missingFieldErrors i t).countP (isInvalidDatetimeAt (i + 1)) = 0 :=
    countP_missingFieldErrors_zero _ i t (fun p g => rfl)
  have z2 : e2.countP (isInvalidDatetimeAt (i + 1)) = 0 := by
    rcases entryPriceCheck_shape i t e2 he2 with rfl | ⟨v, rfl⟩ <;>
      simp [List.countP_cons, isInvalidDatetimeAt]
  have z3 : e3.countP (isInvalidDatetimeAt (i + 1)) = 0 := by
    rcases exitPriceCheck_shape i t e3 he3 with rfl | ⟨v, rfl⟩ <;>
      simp [List.countP_cons, isInvalidDatetimeAt]
  have z4 : (pnlCheck i t).countP (isInvalidDatetimeAt (i + 1)) = 0 := by
    rcases pnlCheck_shape i t with hp | ⟨v, hp⟩ <;> rw [hp] <;>
      simp [List.countP_cons, isInvalidDatetimeAt]
  have o5 : e5.countP (isInvalidDatetimeAt (i + 1)) = 1 := by
    have h5' : timeCheck i t = .ok ([.invalidDatetime (i + 1)], []) := by
      rcases hbad with hbe | hbx
      · exact timeCheck_badEntry i t es xs he hx hbe
      · cases hpe : fromisoformat (replaceZ es) with
        | none => exact timeCheck_badEntry i t es xs he hx hpe
        | some de => exact timeCheck_badExit i t es xs de he hx hpe hbx
    rw [h5'] at h5
    obtain ⟨rfl, -⟩ := Prod.mk.injEq .. ▸ (Except.ok.inj h5)
    simp [List.countP_cons, isInvalidDatetimeAt]
  rw [z1, z2, z3, z4, o5]

theorem toRatOpt_of_isNumeric (v : PyVal) (h : v.isNumeric = true) :
    ∃ q, v.toRatOpt = some q := by
  cases v <;> first
    | exact ⟨_, rfl⟩
    | simp [PyVal.isNumeric] at h

theorem pyLE_ok_left_num (v : PyVal) (h : v.isNumeric = true) (c : Int) :
    ∃ b, pyLE v (.int c) = .ok b := by
  obtain ⟨q, hq⟩ := toRatOpt_of_isNumeric v h
  unfold pyLE
  rw [hq]
  exact ⟨_, rfl⟩

theorem pyLE_ok_right_num (c : Int) (v : PyVal) (h : v.isNumeric = true) :
    ∃ b, pyLE (.int c) v = .ok b := by
  obtain ⟨q, hq⟩ := toRatOpt_of_isNumeric v h
  unfold pyLE
  rw [hq]
  exact ⟨_, rfl⟩

theorem pyLT_ok_left_num (v : PyVal) (h : v.isNumeric = true) (c : Int) :
    ∃ b, pyLT v (.int c) = .ok b := by
  obtain ⟨q, hq⟩ := toRatOpt_of_isNumeric v h
  unfold pyLT
  rw [hq]
  exact ⟨_, rfl⟩

theorem pyToRat_ok_num (v : PyVal) (h : v.isNumeric = true) :
    ∃ q, pyToRat v = .ok q := by
  obtain ⟨q, hq⟩ := toRatOpt_of_isNumeric v h
  unfold pyToRat
  rw [hq]
  exact ⟨q, rfl⟩

theorem numOk_some (t : Trade) (f : String) (v : PyVal)
    (hg : pyGet t f = some v) (h : numOk t f = true) : v.isNumeric = true := by
  unfold numOk at h
  rw [hg] at h
  exact h

theorem strOk_some (t : Trade) (f : String) (v : PyVal)
    (hg : pyGet t f = some v) (h : strOk t f = true) : ∃ s, v = .str s := by
  unfold strOk at h
  rw [hg] at h
  cases v with
  | str s => exact ⟨s, rfl⟩
  | none => exact absurd h (by simp)
  | bool b => exact absurd h (by simp)
  | int n => exact absurd h (by simp)
  | float q => exact absurd h (by simp)

theorem awareOk_parsed (t : Trade) (es xs : String) (de dx : DT)
    (hge : pyGet t "entry_time" = some (.str es))
    (hgx : pyGet t "exit_time" = some (.str xs))
    (hpe : fromisoformat (replaceZ es) = some de)
    (hpx : fromisoformat (replaceZ xs) = some dx)
    (h : awareOk t = true) : de.aware = dx.aware := by
  unfold awareOk at h
  rw [hge, hgx] at h
  have h2 : awareOk2 es xs = true := h
  unfold awareOk2 at h2
  rw [hpe, hpx] at h2
  exact beq_iff_eq.mp h2

theorem entryPriceCheck_ok (i : Nat) (t : Trade) (h : numOk t "entry_price" = true) :
    ∃ l, entryPriceCheck i t = .ok l := by
  cases he : entryPriceCheck i t with
  | ok l => exact ⟨l, rfl⟩
  | error er =>
    exfalso
    unfold entryPriceCheck at he
    split at he
    · exact Except.noConfusion he
    · rename_i v hgv
      split at he
      · rename_i er2 hle
        obtain ⟨b, hb⟩ := pyLE_ok_left_num v (numOk_some t "entry_price" v hgv h) 0
        rw [hb] at hle
        exact Except.noConfusion hle
      · exact Except.noConfusion he

theorem exitPriceCheck_ok (i : Nat) (t : Trade) (h : numOk t "exit_price" = true) :
    ∃ l, exitPriceCheck i t = .ok l := by
  cases he : exitPriceCheck i t with
  | ok l => exact ⟨l, rfl⟩
  | error er =>
    exfalso
    unfold exitPriceCheck at he
    split at he
    · exact Except.noConfusion he
    · rename_i v hgv
      split at he
      · rename_i er2 hle
        obtain ⟨b, hb⟩ := pyLE_ok_left_num v (numOk_some t "exit_price" v hgv h) 0
        rw [hb] at hle
        exact Except.noConfusion hle
      · exact Except.noConfusion he

theorem durationCheck_ok (i : Nat) (t : Trade) (h : numOk t "duration_seconds" = true) :
    ∃ l, durationCheck i t = .ok l := by
  cases he : durationCheck i t with
  | ok l => exact ⟨l, rfl⟩
  | error er =>
    exfalso
    unfold durationCheck at he
    split at he
    · exact Except.noConfusion he
    · rename_i v hgv
      split at he
      · rename_i er2 hle
        obtain ⟨b, hb⟩ := pyLT_ok_left_num v (numOk_some t "duration_seconds" v hgv h) 0
        rw [hb] at hle
        exact Except.noConfusion hle
      · exact Except.noConfusion he

theorem trendCheck_ok (i : Nat) (t : Trade) (h : numOk t "trend_strength" = true) :
    ∃ l, trendCheck i t = .ok l := by
  cases he : trendCheck i t with
  | ok l => exact ⟨l, rfl⟩
  | error er =>
    exfalso
    unfold trendCheck at he
    split at he
    · exact Except.noConfusion he
    · rename_i v hgv
      have hnum := numOk_some t "trend_strength" v hgv h
      split at he
      · rename_i er2 hle
        obtain ⟨b, hb⟩ := pyLE_ok_right_num 0 v hnum
        rw [hb] at hle
        exact Except.noConfusion hle
      · split at he
        · split at he
          · rename_i er2 hle
            obtain ⟨b, hb⟩ := pyLE_ok_left_num v hnum 1
            rw [hb] at hle
            exact Except.noConfusion hle
          · exact Except.noConfusion he
        · exact Except.noConfusion he

theorem volatilityCheck_ok (i : Nat) (t : Trade) (h : numOk t "volatility" = true) :
    ∃ l, volatilityCheck i t = .ok l := by
  cases he : volatilityCheck i t with
  | ok l => exact ⟨l, rfl⟩
  | error er =>
    exfalso
    unfold volatilityCheck at he
    split at he
    · exact Except.noConfusion he
    · rename_i v hgv
      split at he
      · rename_i er2 hle
        obtain ⟨b, hb⟩ := pyLT_ok_left_num v (numOk_some t "volatility" v hgv h) 0
        rw [hb] at hle
        exact Except.noConfusion hle
      · exact Except.noConfusion he

theorem timeCheck_noEntry (i : Nat) (t : Trade)
    (h : pyGet t "entry_time" = Option.none) : timeCheck i t = .ok ([], []) := by
  unfold timeCheck
  rw [h]

theorem timeCheck_someNoExit (i : Nat) (t : Trade) (ev : PyVal)
    (hge : pyGet t "entry_time" = some ev)
    (hgx : pyGet t "exit_time" = Option.none) : timeCheck i t = .ok ([], []) := by
  unfold timeCheck
  rw [hge, hgx]

theorem timeCheck_ok (i : Nat) (t : Trade)
    (hes : strOk t "entry_time" = true) (hxs : strOk t "exit_time" = true)
    (haw : awareOk t = true) (hdur : numOk t "duration_seconds" = true) :
    ∃ e w, timeCheck i t = .ok (e, w) := by
  cases hge : pyGet t "entry_time" with
  | none => exact ⟨[], [], timeCheck_noEntry i t hge⟩
  | some ev =>
    cases hgx : pyGet t "exit_time" with
    | none => exact ⟨[], [], timeCheck_someNoExit i t ev hge hgx⟩
    | some xv =>
      obtain ⟨es, rfl⟩ := strOk_some t "entry_time" ev hge hes
      obtain ⟨xs, rfl⟩ := strOk_some t "exit_time" xv hgx hxs
      cases hpe : fromisoformat (replaceZ es) with
      | none => exact ⟨_, _, timeCheck_badEntry i t es xs hge hgx hpe⟩
      | some de =>
        cases hpx : fromisoformat (replaceZ xs) with
        | none => exact ⟨_, _, timeCheck_badExit i t es xs de hge hgx hpe hpx⟩
        | some dx =>
          have hawe : de.aware = dx.aware :=
            awareOk_parsed t es xs de dx hge hgx hpe hpx haw
          rw [timeCheck_eq i t es xs de dx hge hgx hpe hpx]
          rw [if_neg (by simp [hawe])]
          cases hgd : pyGet t "duration_seconds" with
          | none => exact ⟨_, _, rfl⟩
          | some dv =>
            obtain ⟨q, hq⟩ :=
              pyToRat_ok_num dv (numOk_some t "duration_seconds" dv hgd hdur)
            refine ⟨if dx.secs ≤ de.secs then [Msg.exitBeforeEntry (i + 1)] else [],
              if 1 < ratAbs (dx.secs - de.secs - q) then
                [Msg.durationMismatch (i + 1) (dx.secs - de.secs) dv]
              else [], ?_⟩
            simp only [hq]

theorem checkTrade_ok (i : Nat) (t : Trade) (h : wellTyped t = true) :
    ∃ e w, checkTrade i t = .ok (e, w) := by
  unfold wellTyped at h
  simp only [Bool.and_eq_true] at h
  obtain ⟨⟨⟨⟨⟨⟨⟨h1, h2⟩, h3⟩, h4⟩, h5⟩, h6⟩, h7⟩, h8⟩ := h
  obtain ⟨e2, he2⟩ := entryPriceCheck_ok i t h1
  obtain ⟨e3, he3⟩ := exitPriceCheck_ok i t h2
  obtain ⟨w1, hw1⟩ := durationCheck_ok i t h3
  obtain ⟨w2, hw2⟩ := trendCheck_ok i t h4
  obtain ⟨w3, hw3⟩ := volatilityCheck_ok i t h5
  obtain ⟨e5, w5, h5t⟩ := timeCheck_ok i t h6 h7 h8 h3
  unfold checkTrade
  rw [he2, he3, hw1, hw2, hw3, h5t]
  exact ⟨_, _, rfl⟩

theorem runChecks_ok (ts : List Trade) :
    ∀ k, (∀ t ∈ ts, wellTyped t = true) →
      ∃ es ws, runChecks k ts = .ok (es, ws) := by
  induction ts with
  | nil => exact fun k h => ⟨[], [], rfl⟩
  | cons t0 ts ih =>
    intro k h
    obtain ⟨e, w, hct⟩ := checkTrade_ok k t0 (h t0 (by simp))
    obtain ⟨es, ws, hrc⟩ := ih (k + 1) (fun t ht => h t (by simp [ht]))
    refine ⟨e ++ es, w ++ ws, ?_⟩
    unfold runChecks
    rw [hct, hrc]

theorem verify_ok (trades : List Trade)
    (h : ∀ t ∈ trades, wellTyped t = true) :
    ∃ r, verify_trade_data trades = .ok r := by
  cases trades with
  | nil => exact ⟨_, rfl⟩
  | cons t0 ts =>
    obtain ⟨es, ws, hrc⟩ := runChecks_ok (t0 :: ts) 0 h
    refine ⟨{ valid := es.length == 0, errors := es,
              warnings := some ws, total_trades := some (t0 :: ts).length }, ?_⟩
    unfold verify_trade_data
    rw [hrc]

/-! ### The exporter loop on records without unknown keys -/

theorem writerows_all_known (ts : List Trade)
    (h : ∀ t ∈ ts, ∀ kv ∈ t, kv.1 ∈ fieldnames) :
    writerows ts = .ok (ts.map (fun t => fieldnames.map (fun f => pyGet t f))) := by
  induction ts with
  | nil => rfl
  | cons t0 ts ih =>
    have h0 : writerow t0 = .ok (fieldnames.map (fun f => pyGet t0 f)) := by
      unfold writerow
      rw [if_neg ?_]
      rw [Bool.not_eq_true, List.any_eq_false]
      intro kv hkv
      have hm := h t0 (by simp) kv hkv
      simp [List.contains, List.elem_eq_true_of_mem hm]
      exact hm
    have hts := ih (fun t ht kv hkv => h t (by simp [ht]) kv hkv)
    unfold writerows
    rw [h0, hts]
    rfl

/-! ### The claims -/

/-- C1 counterexample: on the empty input the returned mapping has only the
`valid` and `errors` keys; the `warnings` and `total_trades` keys claimed by
the specification are absent. -/
theorem verify_empty_missing_keys :
    verify_trade_data [] =
      .ok { valid := false, errors := [.noTradesFound],
            warnings := Option.none, total_trades := Option.none } ∧
    (Option.none : Option (List Msg)) ≠ some [] ∧
    (Option.none : Option Nat) ≠ some 0 :=
  ⟨rfl, by simp, by simp⟩

/-- C1 (amended): for the empty input sequence, `verify_trade_data` returns
exactly the mapping `{valid: false, errors: ["No trades found"]}`; the
`warnings` and `total_trades` keys are absent from the early-return dict. -/
theorem verify_empty_report :
    verify_trade_data [] =
      .ok { valid := false, errors := [.noTradesFound],
            warnings := Option.none, total_trades := Option.none } := rfl

/-- C2 counterexample: a record whose `entry_time` holds a non-string (here
the integer `5`) makes `verify_trade_data` raise an uncaught `AttributeError`
(`5 .replace(...)`), since the `try` block only handles `ValueError`.  The
validator therefore does not terminate normally on every loosely-typed
input. -/
theorem verify_wrong_typed_raises :
    verify_trade_data [[("entry_time", PyVal.int 5), ("exit_time", PyVal.str "x")]]
      = .error .attributeError := rfl

/-- C2 (amended): for every input sequence whose records' present fields have
the shapes the checks tolerate (`wellTyped`: numeric prices, durations,
trend strength and volatility; string timestamps — possibly malformed — that
agree on timezone-awareness when both parse), `verify_trade_data` terminates
normally and returns a report, and a record with a malformed timestamp string
contributes exactly one invalid-datetime error for that record while the
remaining records are still validated.  Wrong-typed field values outside this
fragment raise an uncaught `TypeError`/`AttributeError` (see the
counterexample). -/
theorem verify_well_typed_total (trades : List Trade)
    (hWT : ∀ t ∈ trades, wellTyped t = true) :
    ∃ r, verify_trade_data trades = .ok r ∧
      ∀ i t es xs, trades.get? i = some t →
        pyGet t "entry_time" = some (.str es) →
        pyGet t "exit_time" = some (.str xs) →
        (fromisoformat (replaceZ es) = Option.none ∨
         fromisoformat (replaceZ xs) = Option.none) →
        r.errors.countP (isInvalidDatetimeAt (i + 1)) = 1 := by
  obtain ⟨r, hr⟩ := verify_ok trades hWT
  refine ⟨r, hr, ?_⟩
  intro i t es xs hget he hx hbad
  obtain ⟨e, w, hct, h1, -⟩ :=
    verify_countP (isInvalidDatetimeAt (i + 1)) i trades t r hr hget
      (isInvalidDatetimeAt_pos (i + 1))
  rw [h1]
  exact checkTrade_countP_invalidDT i t es xs he hx hbad e w hct

/-- C2 witness: the well-typed totality theorem applied to a concrete record
whose two timestamps are malformed strings. -/
theorem verify_well_typed_total_witness :
    isOkB (verify_trade_data
      [[("entry_time", PyVal.str "not-a-date"),
        ("exit_time", PyVal.str "also-bad")]]) = true := by
  obtain ⟨r, hr, -⟩ := verify_well_typed_total
    [[("entry_time", PyVal.str "not-a-date"), ("exit_time", PyVal.str "also-bad")]]
    (by decide)
  rw [hr]
  rfl

/-- C3: whenever `verify_trade_data` returns a report, `valid` is `true` iff
the `errors` list is empty; the `warnings` list plays no role in `valid`
(the flag is computed from `errors` alone, and the empty-input report has
`valid = false` with the one `"No trades found"` error). -/
theorem verify_valid_iff_no_errors (trades : List Trade) (r : Report)
    (hv : verify_trade_data trades = .ok r) : r.valid = true ↔ r.errors = [] := by
  cases trades with
  | nil =>
    have h0 : verify_trade_data ([] : List Trade)
        = .ok { valid := false, errors := [.noTradesFound],
                warnings := Option.none, total_trades := Option.none } := rfl
    rw [h0] at hv
    obtain rfl := (Except.ok.inj hv).symm
    simp
  | cons t0 ts =>
    unfold verify_trade_data at hv
    split at hv
    · rename_i heq
      simp at heq
    · split at hv
      · simp at hv
      · rename_i es ws hrc
        obtain rfl := (Except.ok.inj hv).symm
        simp

/-- C3 witness: the equivalence instantiated at the empty input and its
report. -/
theorem verify_valid_iff_no_errors_witness :
    (false = true) ↔ ([Msg.noTradesFound] = ([] : List Msg)) :=
  verify_valid_iff_no_errors []
    { valid := false, errors := [.noTradesFound],
      warnings := Option.none, total_trades := Option.none } rfl

/-- C4 counterexample: a record holding a key outside the thirteen CSV
columns makes the export raise `ValueError` (csv.DictWriter's `extrasaction`
defaults to `'raise'`); the unknown field is not silently dropped and the
export does not succeed. -/
theorem export_extra_field_raises :
    export_trades [[("extra", PyVal.int 0)]] "csv" = .error .valueError ∧
    export_trades [[("extra", PyVal.int 0)]] "csv" ≠
      .ok (.csvFile fieldnames [List.replicate 13 Option.none]) :=
  ⟨rfl, fun h => Except.noConfusion h⟩

/-- C4 (amended): for every non-empty record list all of whose keys are among
the thirteen CSV columns, the CSV export succeeds and writes exactly the
thirteen columns in the fixed order, each row looking up the record by column
name regardless of the record's own key order, with a missing field rendered
as an empty cell; a record with an unknown extra key instead raises
`ValueError` (see the counterexample). -/
theorem export_csv_fixed_columns (trades : List Trade)
    (hne : trades ≠ [])
    (hkeys : ∀ t ∈ trades, ∀ kv ∈ t, kv.1 ∈ fieldnames) :
    export_trades trades "csv" =
      .ok (.csvFile fieldnames
        (trades.map (fun t => fieldnames.map (fun f => pyGet t f)))) := by
  have hrows := writerows_all_known trades hkeys
  cases trades with
  | nil => exact absurd rfl hne
  | cons t0 ts =>
    unfold export_trades
    rw [hrows]
    rfl

/-- C4 witness: exporting one record that has only an `id` field yields the
thirteen fixed columns with twelve empty cells. -/
theorem export_csv_fixed_columns_witness :
    export_trades [[("id", PyVal.int 7)]] "csv" =
      .ok (.csvFile fieldnames
        [[some (PyVal.int 7), Option.none, Option.none, Option.none, Option.none,
          Option.none, Option.none, Option.none, Option.none, Option.none,
          Option.none, Option.none, Option.none]]) :=
  (export_csv_fixed_columns [[("id", PyVal.int 7)]] (by simp) (by decide)).trans rfl

/-- C5: the constructor stores `10` in the ad-hoc `session.timeout` attribute,
but every one of the three GET calls is issued without a `timeout=` argument,
and requests ignores the attribute, so the effective socket timeout of each
request is `None` (unbounded) — the claimed 10-second bound does not hold. -/
theorem session_timeout_ineffective :
    (MLTradeQuery.init "http://localhost:8080").session_timeout_attr = some 10 ∧
    get_ml_trades_timeout (MLTradeQuery.init "http://localhost:8080") = Option.none ∧
    get_ml_stats_timeout (MLTradeQuery.init "http://localhost:8080") = Option.none ∧
    get_ml_status_timeout (MLTradeQuery.init "http://localhost:8080") = Option.none :=
  ⟨rfl, rfl, rfl, rfl⟩

/-- C6: for a record whose two timestamps both parse with
`exit_time <= entry_time`, the report carries exactly one exit-before-entry
error for that record, and when `duration_seconds` is present (and numeric)
the duration-consistency warning check is still evaluated: the warning
appears exactly when the computed and stored durations differ by more than
one second. -/
theorem verify_exit_not_after_entry (trades : List Trade) (r : Report) (i : Nat)
    (t : Trade) (es xs : String) (de dx : DT)
    (hv : verify_trade_data trades = .ok r)
    (hget : trades.get? i = some t)
    (he : pyGet t "entry_time" = some (.str es))
    (hx : pyGet t "exit_time" = some (.str xs))
    (hpe : fromisoformat (replaceZ es) = some de)
    (hpx : fromisoformat (replaceZ xs) = some dx)
    (hle : dx.secs ≤ de.secs) :
    r.errors.countP (isExitBeforeEntryAt (i + 1)) = 1 ∧
    (∀ dv q, pyGet t "duration_seconds" = some dv → pyToRat dv = .ok q →
      r.warningsD.countP (isDurMismatchAt (i + 1)) =
        (if 1 < ratAbs (dx.secs - de.secs - q) then 1 else 0)) := by
  constructor
  · obtain ⟨e, w, hct, h1, -⟩ :=
      verify_countP (isExitBeforeEntryAt (i + 1)) i trades t r hv hget
        (isExitBeforeEntryAt_pos (i + 1))
    rw [h1]
    exact checkTrade_countP_exitBeforeEntry i t es xs de dx he hx hpe hpx hle e w hct
  · intro dv q hd hq
    obtain ⟨e, w, hct, -, h2⟩ :=
      verify_countP (isDurMismatchAt (i + 1)) i trades t r hv hget
        (isDurMismatchAt_pos (i + 1))
    rw [h2]
    exact checkTrade_countP_durMismatch i t es xs de dx dv q he hx hpe hpx hd hq e w hct

unseal Rat.sub in
/-- C6 witness: a concrete record with `exit_time` one minute before
`entry_time` and a stored duration of 60 s produces exactly one
exit-before-entry error and one duration-mismatch warning. -/
theorem verify_exit_not_after_entry_witness :
    List.countP (isExitBeforeEntryAt 1)
      [Msg.missingField 1 "id", Msg.missingField 1 "pair",
       Msg.missingField 1 "entry_price", Msg.missingField 1 "exit_price",
       Msg.missingField 1 "pnl", Msg.missingField 1 "success",
       Msg.missingField 1 "market_regime", Msg.missingField 1 "trend_strength",
       Msg.missingField 1 "volatility", Msg.missingField 1 "created_at",
       Msg.exitBeforeEntry 1] = 1 :=
  (verify_exit_not_after_entry
    [[("entry_time", PyVal.str "0001-01-01T00:02:00Z"),
      ("exit_time", PyVal.str "0001-01-01T00:01:00Z"),
      ("duration_seconds", PyVal.int 60)]]
    { valid := false,
      errors := [Msg.missingField 1 "id", Msg.missingField 1 "pair",
        Msg.missingField 1 "entry_price", Msg.missingField 1 "exit_price",
        Msg.missingField 1 "pnl", Msg.missingField 1 "success",
        Msg.missingField 1 "market_regime", Msg.missingField 1 "trend_strength",
        Msg.missingField 1 "volatility", Msg.missingField 1 "created_at",
        Msg.exitBeforeEntry 1],
      warnings := some [Msg.durationMismatch 1 (-60) (PyVal.int 60)],
      total_trades := some 1 }
    0
    [("entry_time", PyVal.str "0001-01-01T00:02:00Z"),
     ("exit_time", PyVal.str "0001-01-01T00:01:00Z"),
     ("duration_seconds", PyVal.int 60)]
    "0001-01-01T00:02:00Z" "0001-01-01T00:01:00Z"
    ⟨86520, true⟩ ⟨86460, true⟩
    (by decide) rfl rfl rfl (by decide) (by decide) (by decide)).1

/-- C7: for a record whose two timestamps both parse and whose
`duration_seconds` is present and numeric, the report carries exactly one
duration-mismatch warning when the computed duration differs from the stored
one by strictly more than one second, and none when the difference is one
second or less. -/
theorem verify_duration_mismatch (trades : List Trade) (r : Report) (i : Nat)
    (t : Trade) (es xs : String) (de dx : DT) (dv : PyVal) (q : Rat)
    (hv : verify_trade_data trades = .ok r)
    (hget : trades.get? i = some t)
    (he : pyGet t "entry_time" = some (.str es))
    (hx : pyGet t "exit_time" = some (.str xs))
    (hpe : fromisoformat (replaceZ es) = some de)
    (hpx : fromisoformat (replaceZ xs) = some dx)
    (hd : pyGet t "duration_seconds" = some dv)
    (hq : pyToRat dv = .ok q) :
    r.warningsD.countP (isDurMismatchAt (i + 1)) =
      (if 1 < ratAbs (dx.secs - de.secs - q) then 1 else 0) := by
  obtain ⟨e, w, hct, -, h2⟩ :=
    verify_countP (isDurMismatchAt (i + 1)) i trades t r hv hget
      (isDurMismatchAt_pos (i + 1))
  rw [h2]
  exact checkTrade_countP_durMismatch i t es xs de dx dv q he hx hpe hpx hd hq e w hct

unseal Rat.sub in
/-- C7 witness: a two-minute trade with a stored duration of 200 s (an 80 s
discrepancy) gets exactly one duration-mismatch warning. -/
theorem verify_duration_mismatch_witness :
    List.countP (isDurMismatchAt 1) [Msg.durationMismatch 1 120 (PyVal.int 200)] = 1 := by
  have h := verify_duration_mismatch
    [[("entry_time", PyVal.str "0001-01-01T00:00:00Z"),
      ("exit_time", PyVal.str "0001-01-01T00:02:00Z"),
      ("duration_seconds", PyVal.int 200)]]
    { valid := false,
      errors := [Msg.missingField 1 "id", Msg.missingField 1 "pair",
        Msg.missingField 1 "entry_price", Msg.missingField 1 "exit_price",
        Msg.missingField 1 "pnl", Msg.missingField 1 "success",
        Msg.missingField 1 "market_regime", Msg.missingField 1 "trend_strength",
        Msg.missingField 1 "volatility", Msg.missingField 1 "created_at"],
      warnings := some [Msg.durationMismatch 1 120 (PyVal.int 200)],
      total_trades := some 1 }
    0
    [("entry_time", PyVal.str "0001-01-01T00:00:00Z"),
     ("exit_time", PyVal.str "0001-01-01T00:02:00Z"),
     ("duration_seconds", PyVal.int 200)]
    "0001-01-01T00:00:00Z" "0001-01-01T00:02:00Z"
    ⟨86400, true⟩ ⟨86520, true⟩ (PyVal.int 200) 200
    (by decide) rfl rfl rfl (by decide) (by decide) rfl rfl
  rw [if_pos (by decide)] at h
  exact h

/-- C8: for every record and every one of the thirteen required fields absent
from it, the report carries exactly one missing-field error naming that field
and the record's 1-based position. -/
theorem verify_missing_field_error (trades : List Trade) (r : Report) (i : Nat)
    (t : Trade) (f : String)
    (hv : verify_trade_data trades = .ok r)
    (hget : trades.get? i = some t)
    (hf : f ∈ required_fields)
    (hab : pyGet t f = Option.none) :
    r.errors.countP (isMissingFieldAt (i + 1) f) = 1 := by
  obtain ⟨e, w, hct, h1, -⟩ :=
    verify_countP (isMissingFieldAt (i + 1) f) i trades t r hv hget
      (isMissingFieldAt_pos (i + 1) f)
  rw [h1]
  exact checkTrade_countP_missing i t f hf hab e w hct

/-- C8 witness: validating one empty record yields exactly one missing-field
error for `id` among the thirteen. -/
theorem verify_missing_field_error_witness :
    List.countP (isMissingFieldAt 1 "id")
      (required_fields.map (Msg.missingField 1)) = 1 :=
  verify_missing_field_error [[]]
    { valid := false, errors := required_fields.map (Msg.missingField 1),
      warnings := some [], total_trades := some 1 }
    0 [] "id" (by decide) rfl (by decide) rfl

/-- C10: a `pnl` holding a boolean passes the numeric type check — Python's
`bool` is a subclass of `int`, so `isinstance(pnl, (int, float))` is true —
and no invalid-pnl-type error is produced for that record. -/
theorem verify_bool_pnl (trades : List Trade) (r : Report) (i : Nat)
    (t : Trade) (b : Bool)
    (hv : verify_trade_data trades = .ok r)
    (hget : trades.get? i = some t)
    (hp : pyGet t "pnl" = some (.bool b)) :
    PyVal.isNumeric (.bool b) = true ∧
    r.errors.countP (isInvalidPnlAt (i + 1)) = 0 := by
  refine ⟨rfl, ?_⟩
  obtain ⟨e, w, hct, h1, -⟩ :=
    verify_countP (isInvalidPnlAt (i + 1)) i trades t r hv hget
      (isInvalidPnlAt_pos (i + 1))
  rw [h1]
  exact checkTrade_countP_pnl_bool i t b hp e w hct

/-- C10 witness: a record whose `pnl` is `True` gets no invalid-pnl-type
error (its twelve other required fields are reported missing instead). -/
theorem verify_bool_pnl_witness :
    PyVal.isNumeric (PyVal.bool true) = true ∧
    List.countP (isInvalidPnlAt 1)
      [Msg.missingField 1 "id", Msg.missingField 1 "pair",
       Msg.missingField 1 "entry_price", Msg.missingField 1 "exit_price",
       Msg.missingField 1 "duration_seconds", Msg.missingField 1 "entry_time",
       Msg.missingField 1 "exit_time", Msg.missingField 1 "success",
       Msg.missingField 1 "market_regime", Msg.missingField 1 "trend_strength",
       Msg.missingField 1 "volatility", Msg.missingField 1 "created_at"] = 0 :=
  verify_bool_pnl [[("pnl", PyVal.bool true)]]
    { valid := false,
      errors := [Msg.missingField 1 "id", Msg.missingField 1 "pair",
        Msg.missingField 1 "entry_price", Msg.missingField 1 "exit_price",
        Msg.missingField 1 "duration_seconds", Msg.missingField 1 "entry_time",
        Msg.missingField 1 "exit_time", Msg.missingField 1 "success",
        Msg.missingField 1 "market_regime", Msg.missingField 1 "trend_strength",
        Msg.missingField 1 "volatility", Msg.missingField 1 "created_at"],
      warnings := some [], total_trades := some 1 }
    0 [("pnl", PyVal.bool true)] true (by decide) rfl rfl

/-- C9 counterexample: a non-2xx transport outcome on which the claim fails —
a 304 response with a successful JSON body.  `raise_for_status` only raises
for statuses 400-599, so the fetch prints no message and returns the payload
rather than the empty list. -/
theorem fetch_non2xx_counterexample :
    tradeLogs (get_ml_trades (.response 304 (some (.obj
      [("success", .bool true), ("data", .arr [.num 1])])))) = some [] ∧
    tradeResult (get_ml_trades (.response 304 (some (.obj
      [("success", .bool true), ("data", .arr [.num 1])])))) = some (.arr [.num 1]) ∧
    ¬(304 / 100 = 2) ∧ JVal.arr [JVal.num 1] ≠ JVal.arr [] := by
  refine ⟨rfl, rfl, by omega, ?_⟩
  intro h
  injection h with h2
  exact List.noConfusion h2

/-- C9 (amended): for every transport outcome among network failure, an HTTP
status in 400-599, a response body that is not well-formed JSON, or a parsed
object body with `success == false`, each of the three fetch operations
returns without an uncaught exception, prints at least one message, and
returns the empty/absent result (`[]` for trades, `None` for stats and
status); statuses 300-399 are not covered by `raise_for_status` (see the
counterexample) and no retry exists in the model. -/
theorem fetch_failure_empty (o : FetchOutcome) (h : failureOutcome o) :
    (tradeLogs (get_ml_trades o)).isSome = true ∧
    tradeLogs (get_ml_trades o) ≠ some [] ∧
    tradeResult (get_ml_trades o) = some (.arr []) ∧
    (optLogs (get_ml_stats o)).isSome = true ∧
    optLogs (get_ml_stats o) ≠ some [] ∧
    optResult (get_ml_stats o) = some Option.none ∧
    (optLogs (get_ml_status o)).isSome = true ∧
    optLogs (get_ml_status o) ≠ some [] ∧
    optResult (get_ml_status o) = some Option.none := by
  cases o with
  | netError =>
    exact ⟨rfl, by simp [tradeLogs, get_ml_trades], rfl,
           rfl, by simp [optLogs, get_ml_stats], rfl,
           rfl, by simp [optLogs, get_ml_status], rfl⟩
  | response status body =>
    unfold failureOutcome at h
    rcases h with ⟨h4, h6⟩ | rfl | ⟨kvs, rfl, hsucc⟩
    · have hrs : raiseForStatus status = true := by
        unfold raiseForStatus
        simp only [Bool.and_eq_true, decide_eq_true_eq]
        omega
      simp [get_ml_trades, get_ml_stats, get_ml_status, hrs,
        tradeLogs, tradeResult, optLogs, optResult]
    · by_cases hrs : raiseForStatus status = true <;>
        simp [get_ml_trades, get_ml_stats, get_ml_status, hrs,
          tradeLogs, tradeResult, optLogs, optResult]
    · by_cases hrs : raiseForStatus status = true <;>
        simp [get_ml_trades, get_ml_stats, get_ml_status, hrs, hsucc, truthy,
          tradeLogs, tradeResult, optLogs, optResult]

/-- C9 witness: the failure contract instantiated at a network failure. -/
theorem fetch_failure_empty_witness :
    (tradeLogs (get_ml_trades .netError)).isSome = true ∧
    tradeLogs (get_ml_trades .netError) ≠ some [] ∧
    tradeResult (get_ml_trades .netError) = some (.arr []) ∧
    (optLogs (get_ml_stats .netError)).isSome = true ∧
    optLogs (get_ml_stats .netError) ≠ some [] ∧
    optResult (get_ml_stats .netError) = some Option.none ∧
    (optLogs (get_ml_status .netError)).isSome = true ∧
    optLogs (get_ml_status .netError) ≠ some [] ∧
    optResult (get_ml_status .netError) = some Option.none :=
  fetch_failure_empty .netError True.intro

end QueryTradesML
